import Mathlib

/-!
Verification development for the gittar repository: a shallow embedding of
the identifier parser (getTarUrl.ts), the platform resolver, the cache path
resolver (utils.ts), the cache reader/copier (cache.ts), the tar downloader
(download.ts), the extractor (extract.ts) and the fetch orchestrator
(gittar.ts), together with theorems settling the specification claims.

JavaScript strings are modeled by Lean String; the JS string primitives used
by the source (split, join, slice, includes, startsWith, endsWith,
toLowerCase, the default Array.prototype.sort comparator) are modeled by
structural functions over the character list String.data so that every
definition evaluates inside the kernel.
-/

namespace Gittar

/-- Splits a character list at every occurrence of the character c.
Models JS String.prototype.split with a one-character separator:
splitting the empty string yields one empty piece. -/
def splitOnChar (c : Char) : List Char → List (List Char)
  | [] => [[]]
  | a :: t =>
    match splitOnChar c t with
    | [] => [[]]
    | h :: r => if a = c then [] :: h :: r else (a :: h) :: r

/-- String form of splitOnChar. -/
def splitChar (c : Char) (s : String) : List String :=
  (splitOnChar c s.data).map String.mk

/-- Joins pieces with a separator. Models Array.prototype.join. -/
def joinSep (sep : List Char) : List (List Char) → List Char
  | [] => []
  | [x] => x
  | x :: y :: t => x ++ sep ++ joinSep sep (y :: t)

/-- String form of joinSep. -/
def joinStr (sep : String) (parts : List String) : String :=
  String.mk (joinSep sep.data (parts.map String.data))

/-- Splits a character list at the first occurrence of the pattern sep,
returning the part before and the part after; none when sep does not occur. -/
def splitFirstAt (sep : List Char) : List Char → Option (List Char × List Char)
  | [] => none
  | a :: t =>
    if sep.isPrefixOf (a :: t) then some ([], (a :: t).drop sep.length)
    else
      match splitFirstAt sep t with
      | some (pre, post) => some (a :: pre, post)
      | none => none

/-- Substring containment test. Models JS String.prototype.includes. -/
def listHasInfix (sub : List Char) : List Char → Bool
  | [] => sub.isEmpty
  | a :: t => sub.isPrefixOf (a :: t) || listHasInfix sub t

/-- String form of listHasInfix. -/
def strIncludes (s sub : String) : Bool :=
  listHasInfix sub.data s.data

/-- Models JS String.prototype.startsWith. -/
def strStarts (s pre : String) : Bool :=
  pre.data.isPrefixOf s.data

/-- Models JS String.prototype.endsWith. -/
def strEnds (s suf : String) : Bool :=
  suf.data.isSuffixOf s.data

/-- Models JS String.prototype.includes with a one-character argument. -/
def strHasChar (s : String) (c : Char) : Bool :=
  s.data.contains c

/-- Drops the first n characters. Models String.prototype.slice(n). -/
def dropStr (n : Nat) (s : String) : String :=
  String.mk (s.data.drop n)

/-- ASCII lower-casing of one character. Models the effect of
String.prototype.toLowerCase on the ASCII hostnames handled here. -/
def lowerChar (c : Char) : Char :=
  if 'A' ≤ c && c ≤ 'Z' then Char.ofNat (c.toNat + 32) else c

/-- ASCII lower-casing of a string. -/
def lowerStr (s : String) : String :=
  String.mk (s.data.map lowerChar)

/-- Lexicographic comparison of character lists by code point. Models the
default JS Array.prototype.sort string comparison. -/
def strLeData : List Char → List Char → Bool
  | [], _ => true
  | _ :: _, [] => false
  | a :: s, b :: t => if a = b then strLeData s t else decide (a < b)

/-- String form of strLeData. -/
def strLe (s t : String) : Bool :=
  strLeData s.data t.data

/-- Inserts a string into a sorted list, keeping it sorted. -/
def insertSorted (a : String) : List String → List String
  | [] => [a]
  | b :: t => if strLe a b then a :: b :: t else b :: insertSorted a t

/-- Insertion sort of strings. Models Array.prototype.sort() with the
default comparator. -/
def sortStrs : List String → List String
  | [] => []
  | a :: t => insertSorted a (sortStrs t)

/-- JS truthiness of an optional string: undefined and the empty string are
falsy, every other string is truthy. -/
def truthyS : Option String → Bool
  | none => false
  | some s => s ≠ ""

/-- Models the JS expression a || b on optional strings: the first operand
when it is truthy, the second operand otherwise. -/
def jsOrStr (a b : Option String) : Option String :=
  match a with
  | some s => if s = "" then b else some s
  | none => b

/-! Identifier parser, from getTarUrl.ts. -/

/-- Record produced by parseInput: the descriptor of a repository.
Matches the return shape of parseInput in getTarUrl.ts. -/
structure ParsedRepo where
  owner : String
  repo : String
  hostname : String
  ref : String
  subpath : Option String
deriving DecidableEq

/-- Models the JS expression defaultBranch || "main" used to initialize the
ref in every parse branch of getTarUrl.ts. -/
def refOf (defaultBranch : Option String) : String :=
  match defaultBranch with
  | some d => if d = "" then "main" else d
  | none => "main"

/-- Strips one trailing ".git". Models path.replace with the anchored
pattern dot-git-end in parseSshFormat. -/
def stripDotGit (path : String) : String :=
  if strEnds path ".git" then String.mk (path.data.take (path.data.length - 4)) else path

/-- Models parseSshFormat of getTarUrl.ts: the anchored pattern
git-at-host-colon-path, where host is the nonempty run of characters before
the first colon after the git-at mark and path is the nonempty remainder;
then a trailing ".git" is stripped, the path split on "/" with empty
segments dropped, and the first two segments become owner and repo. -/
def parseSshFormat (input : String) (defaultBranch : Option String) : Option ParsedRepo :=
  match splitChar ':' (dropStr 4 input) with
  | host :: p :: ps =>
    let path := joinStr ":" (p :: ps)
    if host = "" || path = "" then none
    else
      let repoPath := stripDotGit path
      match (splitChar '/' repoPath).filter (fun seg => seg ≠ "") with
      | owner :: repo :: _ =>
        if owner = "" || repo = "" then none
        else some { owner, repo, hostname := host, ref := refOf defaultBranch, subpath := none }
      | _ => none
  | _ => none

/-- Models parseShortFormat of getTarUrl.ts: split on "/", drop empty
segments, first two segments are owner and repo, hostname defaults to
github.com. -/
def parseShortFormat (input : String) (defaultBranch : Option String) : Option ParsedRepo :=
  match (splitChar '/' input).filter (fun seg => seg ≠ "") with
  | owner :: repo :: _ =>
    if owner = "" || repo = "" then none
    else some { owner, repo, hostname := "github.com", ref := refOf defaultBranch, subpath := none }
  | _ => none

/-- Branch markers recognized in URL paths by parseUrlFormat. -/
def branchMarkers : List String :=
  ["tree", "blob", "raw", "src", "browse"]

/-- Models parseUrlFormat of getTarUrl.ts, taking the hostname and pathname
fields of the parsed URL object: path segments with empty segments dropped,
first two are owner and repo; when the third segment is a branch marker the
following segment (when present and nonempty) becomes the ref and the
remaining segments joined with "/" become the subpath. -/
def parseUrlFormat (hostname pathname : String) (defaultBranch : Option String) : Option ParsedRepo :=
  match (splitChar '/' pathname).filter (fun seg => seg ≠ "") with
  | owner :: repo :: rest =>
    if owner = "" || repo = "" then none
    else
      let ref0 := refOf defaultBranch
      let refSub : String × Option String :=
        match rest with
        | ty :: rest1 =>
          if branchMarkers.contains ty then
            let r := match rest1 with
              | rseg :: _ => if rseg ≠ "" then rseg else ref0
              | [] => ref0
            let sp := match rest1 with
              | _ :: s1 :: stail => some (joinStr "/" (s1 :: stail))
              | _ => none
            (r, sp)
          else (ref0, none)
        | [] => (ref0, none)
      some { owner, repo, hostname, ref := refSub.1, subpath := refSub.2 }
  | _ => none

/-- Models the WHATWG URL constructor (a JS runtime primitive, not
repository code) restricted to the absolute scheme://host/path shapes this
repository exercises: returns the lower-cased hostname and the pathname;
none models the constructor throwing. Userinfo, ports, queries and
fragments are outside the modeled fragment. -/
def parseURL (input : String) : Option (String × String) :=
  match splitFirstAt "://".data input.data with
  | none => none
  | some (scheme, rest) =>
    if scheme.isEmpty then none
    else
      match splitOnChar '/' rest with
      | [] => none
      | host :: segs =>
        if host.isEmpty then none
        else some (lowerStr (String.mk host), String.mk ('/' :: joinSep ['/'] segs))

/-- Models parseInput of getTarUrl.ts: dispatch on the input shape, first
match wins. SSH style when the input starts with git-at; short form when the
input has no scheme separator, no http prefix and no at sign; otherwise the
input is parsed as a URL, falling back to the short form when the URL
constructor throws. -/
def parseInput (input : String) (defaultBranch : Option String) : Option ParsedRepo :=
  if strStarts input "git@" then parseSshFormat input defaultBranch
  else if !(strIncludes input "://") && !(strStarts input "http") && !(strHasChar input '@') then
    parseShortFormat input defaultBranch
  else
    match parseURL input with
    | some hp => parseUrlFormat hp.1 hp.2 defaultBranch
    | none => parseShortFormat input defaultBranch

/-- Ordered platform detection table of detectPlatform in getTarUrl.ts;
JS object literals iterate in insertion order, so azure is checked first. -/
def platformMappings : List (String × List String) :=
  [("azure", ["dev.azure.com", "visualstudio.com"]),
   ("codeberg", ["codeberg"]),
   ("forgejo", ["forgejo"]),
   ("gitea", ["gitea"]),
   ("github", ["github"]),
   ("gitlab", ["gitlab"]),
   ("bitbucket", ["bitbucket"])]

/-- Models detectPlatform of getTarUrl.ts: lower-case the hostname, then
return the first platform one of whose substrings occurs in it. -/
def detectPlatform (hostname : String) : Option String :=
  let normalized := lowerStr hostname
  (platformMappings.find? (fun pc => pc.2.any (fun check => strIncludes normalized check))).map
    (fun pc => pc.1)

/-- Models getTarUrl of getTarUrl.ts: parse the input, detect the platform,
return none for unparseable input, unrecognized hosts and azure, otherwise
format the platform tarball URL. The source wraps the whole body in a
try/catch returning null; the model is a total function, so the catch-all
branch has no separate representation. -/
def getTarUrl (input : String) (branch : Option String) : Option String :=
  match parseInput input branch with
  | none => none
  | some p =>
    match detectPlatform p.hostname with
    | none => none
    | some platform =>
      if platform = "azure" then none
      else if platform = "github" then
        some ("https://" ++ p.hostname ++ "/" ++ p.owner ++ "/" ++ p.repo ++ "/archive/" ++ p.ref ++ ".tar.gz")
      else if platform = "gitlab" then
        some ("https://" ++ p.hostname ++ "/" ++ p.owner ++ "/" ++ p.repo ++ "/-/archive/" ++ p.ref ++ "/" ++ p.repo ++ "-" ++ p.ref ++ ".tar.gz")
      else if platform = "bitbucket" then
        some ("https://" ++ p.hostname ++ "/" ++ p.owner ++ "/" ++ p.repo ++ "/get/" ++ p.ref ++ ".tar.gz")
      else
        some ("https://" ++ p.hostname ++ "/" ++ p.owner ++ "/" ++ p.repo ++ "/archive/" ++ p.ref ++ ".tar.gz")

example : parseInput "owner/repo" none =
    some { owner := "owner", repo := "repo", hostname := "github.com", ref := "main", subpath := none } := by
  decide

example : getTarUrl "owner/repo" none = some "https://github.com/owner/repo/archive/main.tar.gz" := by
  decide

example : getTarUrl "https://gitlab.com/owner/repo" (some "dev") =
    some "https://gitlab.com/owner/repo/-/archive/dev/repo-dev.tar.gz" := by
  decide

example : getTarUrl "https://dev.azure.com/o/p/_git/r" none = none := by
  decide

example : parseInput "git@github.com:user/repo.git" none =
    some { owner := "user", repo := "repo", hostname := "github.com", ref := "main", subpath := none } := by
  decide

example : parseInput "https://github.com/user/repo/tree/dev/src/lib" none =
    some { owner := "user", repo := "repo", hostname := "github.com", ref := "dev",
           subpath := some "src/lib" } := by
  decide

/-! Cache path resolver and repo info, from utils.ts. The ambient
Node os.homedir() value is passed as an explicit home parameter. -/

/-- Caller configuration, from types.public.ts. Absent optional fields are
modeled by none. -/
structure Config where
  cacheDir : Option String := none
  outDir : Option String := none
  update : Option Bool := none
  url : String
  branch : Option String := none
  subpath : Option String := none
deriving DecidableEq

/-- Models normalizePath of utils.ts: a leading tilde-slash is replaced by
the home directory plus the remainder, a bare tilde becomes the home
directory, anything else is returned unchanged. -/
def normalizePath (home : String) (path : String) : String :=
  if strStarts path "~/" then home ++ "/" ++ dropStr 2 path
  else if path = "~" then home
  else path

/-- Models getCacheDir of utils.ts: a truthy config.cacheDir wins after
tilde expansion, otherwise the default home/.cache/hulla/gittar/owner/repo
path. The subpath argument the orchestrator passes is ignored by the
source signature and therefore does not appear here. -/
def getCacheDir (home : String) (config : Config) (owner repo : String) : String :=
  match config.cacheDir with
  | some cd =>
    if cd = "" then home ++ "/.cache/hulla/gittar/" ++ owner ++ "/" ++ repo
    else normalizePath home cd
  | none => home ++ "/.cache/hulla/gittar/" ++ owner ++ "/" ++ repo

/-- Error kinds of errors.ts, specialized to the conditions the model can
raise; each constructor records the data interpolated into the source
message. -/
inductive URLErr where
  | parseFailed (url : String)
  | unsupportedPlatform (url : String)
  | downloadFailed (status : Nat) (statusText : String) (branch : String)
  | networkError (url : String)
  | allBranchesFailed (url : String)
deriving DecidableEq

/-- Filesystem error kinds of errors.ts raised by cache.ts. -/
inductive FsErr where
  | copyFailed (src dst : String)
deriving DecidableEq

/-- Models parseRepoInfo of utils.ts: parseInput with no branch override,
throwing URLError on failure, keeping owner, repo and subpath. -/
def parseRepoInfo (url : String) : Except URLErr (String × String × Option String) :=
  match parseInput url none with
  | none => .error (.parseFailed url)
  | some p => .ok (p.owner, p.repo, p.subpath)

/-! Filesystem model. The spec treats raw filesystem operations as external
collaborators; they are modeled over an explicit state: the set of
directories known to exist and the set of absolute paths of regular files.
Directories implied by an existing file are treated as existing, matching a
real filesystem. -/

/-- Filesystem state: directories explicitly created or observed, and
absolute paths of regular files. -/
structure FS where
  dirs : List String
  files : List String
deriving DecidableEq

/-- True when p lies strictly under the directory root, that is, p starts
with root followed by a slash. -/
def isUnder (root p : String) : Bool :=
  (root ++ "/").data.isPrefixOf p.data

/-- Path of p relative to the directory root (meaningful when isUnder). -/
def relTo (root p : String) : String :=
  String.mk (p.data.drop (root ++ "/").data.length)

/-- True when a relative path has a dot-initial segment. Bun Glob scans
skip such entries (verified by the repository tests on hidden files). -/
def hiddenRel (rel : String) : Bool :=
  (splitChar '/' rel).any (fun seg => strStarts seg ".")

/-- Models test -d: the directory exists when recorded or when some file
lies under it. -/
def dirExists (fs : FS) (d : String) : Bool :=
  fs.dirs.contains d || fs.files.any (fun p => isUnder d p)

/-- Models test -e: the path exists when it is a directory, a file, or has
a file under it. -/
def pathExists (fs : FS) (p : String) : Bool :=
  fs.dirs.contains p || fs.files.contains p || fs.files.any (fun q => isUnder p q)

/-- Models the Bun Glob star-star scan with onlyFiles: the sorted-agnostic
list of relative paths of non-hidden regular files strictly under root. -/
def scanFiles (fs : FS) (root : String) : List String :=
  (fs.files.filter (fun p => isUnder root p && !hiddenRel (relTo root p))).map (relTo root)

/-- All files under root, hidden ones included; cp -R copies these. -/
def allFilesUnder (fs : FS) (root : String) : List String :=
  (fs.files.filter (fun p => isUnder root p)).map (relTo root)

/-- Models the ternary subpath ? dir/subpath : dir used by both checkCache
and copyFiles of cache.ts (JS truthiness: an empty subpath selects dir). -/
def subDirOf (dir : String) (subpath : Option String) : String :=
  match subpath with
  | some sp => if sp = "" then dir else dir ++ "/" ++ sp
  | none => dir

/-- Models checkCache of cache.ts: none when the cache directory does not
exist or the requested subpath entry does not exist under it; otherwise the
sorted absolute paths of the non-hidden files under the search directory. -/
def checkCache (fs : FS) (cacheDir : String) (subpath : Option String) : Option (List String) :=
  if !(dirExists fs cacheDir) then none
  else
    let searchDir := subDirOf cacheDir subpath
    if !(pathExists fs searchDir) then none
    else some (sortStrs ((scanFiles fs searchDir).map (fun f => searchDir ++ "/" ++ f)))

/-- Models copyFiles of cache.ts: mkdir -p destDir, fail when the copy
source does not exist, copy every file under the copy source (hidden ones
included, overwriting colliding destination paths), then return the sorted
absolute paths of the non-hidden files now under destDir. -/
def copyFiles (fs : FS) (sourceDir destDir : String) (subpath : Option String) :
    Except FsErr (FS × List String) :=
  let copySource := subDirOf sourceDir subpath
  if !(pathExists fs copySource) then .error (.copyFailed sourceDir destDir)
  else
    let copied := (allFilesUnder fs copySource).map (fun r => destDir ++ "/" ++ r)
    let fs1 : FS :=
      { dirs := destDir :: fs.dirs,
        files := fs.files.filter (fun p => !copied.contains p) ++ copied }
    .ok (fs1, sortStrs ((scanFiles fs1 destDir).map (fun f => destDir ++ "/" ++ f)))

/-- Models extractTar of extract.ts: the archive payload is represented by
the list of file paths it extracts to, relative to the target, with the
single root component already stripped (tar --strip-components=1); the
target directory is created and the full payload is written under it,
overwriting colliding paths; returns the new state and the sorted absolute
paths of the non-hidden files under the target. -/
def extractTar (fs : FS) (tree : List String) (outdir : String) : FS × List String :=
  let written := tree.map (fun r => outdir ++ "/" ++ r)
  let fs1 : FS :=
    { dirs := outdir :: fs.dirs,
      files := fs.files.filter (fun p => !written.contains p) ++ written }
  (fs1, sortStrs ((scanFiles fs1 outdir).map (fun f => outdir ++ "/" ++ f)))

/-! Downloader, from download.ts. The network is an oracle from URL to
either a transport failure (a rejected fetch promise) or an HTTP response;
the response payload is the tree the tarball extracts to. -/

/-- HTTP response: status, status text and the tarball payload modeled by
its extracted tree. -/
structure HttpResp where
  status : Nat
  statusText : String
  payload : List String
deriving DecidableEq

/-- Models the Response.ok flag: true exactly for 2xx statuses. -/
def respOk (r : HttpResp) : Bool :=
  200 ≤ r.status && r.status ≤ 299

/-- Outcome of downloadTar: the payload or the error, together with the
list of URLs actually fetched, in order. -/
inductive DlResult where
  | ok (payload : List String) (attempts : List String)
  | err (e : URLErr) (attempts : List String)
deriving DecidableEq

/-- Models the candidate list of download.ts: a truthy config.branch is the
single candidate, otherwise main then master. -/
def branchCandidates (config : Config) : List String :=
  match config.branch with
  | some b => if b = "" then ["main", "master"] else [b]
  | none => ["main", "master"]

/-- Loop body of downloadTar of download.ts over the remaining candidates;
attempts accumulates the URLs fetched so far. A missing tarball URL is an
immediate unsupported-platform error; a 2xx returns the payload; a 404
advances to the next candidate exactly when one remains; any other status
is an immediate download failure; a transport failure is wrapped
immediately. -/
def downloadTarGo (cfgUrl : String) (http : String → Except String HttpResp) :
    List String → List String → DlResult
  | attempts, [] => .err (.allBranchesFailed cfgUrl) attempts
  | attempts, b :: rest =>
    match getTarUrl cfgUrl (some b) with
    | none => .err (.unsupportedPlatform cfgUrl) attempts
    | some url =>
      match http url with
      | .error _ => .err (.networkError url) (attempts ++ [url])
      | .ok resp =>
        if respOk resp then .ok resp.payload (attempts ++ [url])
        else if resp.status == 404 && !rest.isEmpty then
          downloadTarGo cfgUrl http (attempts ++ [url]) rest
        else .err (.downloadFailed resp.status resp.statusText b) (attempts ++ [url])

/-- Models downloadTar of download.ts. -/
def downloadTar (config : Config) (http : String → Except String HttpResp) : DlResult :=
  downloadTarGo config.url http [] (branchCandidates config)

/-! Fetch orchestrator, from gittar.ts. -/

/-- Result record returned to the caller, from types.public.ts. -/
structure GittarResult where
  files : List String
  cacheDir : String
  outDir : String
  subpath : Option String
  fromCache : Bool
deriving DecidableEq

/-- Error raised by the orchestrator: a URL error or a filesystem error. -/
inductive GErr where
  | url (e : URLErr)
  | fs (e : FsErr)
deriving DecidableEq

/-- Observable outcome of one gittar call: the result record, the final
filesystem state and the URLs fetched over the network. -/
structure GOutcome where
  result : GittarResult
  fs : FS
  fetched : List String
deriving DecidableEq

/-- Download-extract-report tail of gittar.ts (lines after the cache check):
download with branch fallback, extract the full tar into cacheDir, then
either copy to a distinct outdir filtered by subpath or list the cache
directly; the source applies a non-null assertion to the second checkCache
call, modeled by getD with the empty list. -/
def gittarDownloadTail (fs : FS) (http : String → Except String HttpResp) (config : Config)
    (subpath : Option String) (cacheDir outdir : String) : Except GErr GOutcome :=
  match downloadTar config http with
  | .err e _ => .error (.url e)
  | .ok tree attempts =>
    let fs1 := (extractTar fs tree cacheDir).1
    if outdir ≠ cacheDir then
      match copyFiles fs1 cacheDir outdir subpath with
      | .error e => .error (.fs e)
      | .ok (fs2, files) =>
        .ok { result := { files, cacheDir, outDir := outdir, subpath, fromCache := false },
              fs := fs2, fetched := attempts }
    else
      let files := (checkCache fs1 cacheDir subpath).getD []
      .ok { result := { files, cacheDir, outDir := outdir, subpath, fromCache := false },
            fs := fs1, fetched := attempts }

/-- Models gittar of gittar.ts: parse the url, take the config subpath when
truthy and the url-derived subpath otherwise, resolve cacheDir and outdir,
serve from the cache when update is not true and checkCache reports a hit
(copying to a distinct outdir), otherwise download, extract and report. -/
def gittar (home : String) (fs : FS) (http : String → Except String HttpResp)
    (config : Config) : Except GErr GOutcome :=
  match parseInput config.url none with
  | none => .error (.url (.parseFailed config.url))
  | some parsed =>
    let subpath := jsOrStr config.subpath parsed.subpath
    let cacheDir := getCacheDir home config parsed.owner parsed.repo
    let outdir :=
      match config.outDir with
      | some od => if od = "" then cacheDir else normalizePath home od
      | none => cacheDir
    if config.update ≠ some true then
      match checkCache fs cacheDir subpath with
      | some cachedFiles =>
        if outdir ≠ cacheDir then
          match copyFiles fs cacheDir outdir subpath with
          | .error e => .error (.fs e)
          | .ok (fs2, files) =>
            .ok { result := { files, cacheDir, outDir := outdir, subpath, fromCache := true },
                  fs := fs2, fetched := [] }
        else
          .ok { result := { files := cachedFiles, cacheDir, outDir := outdir, subpath,
                            fromCache := true },
                fs := fs, fetched := [] }
      | none => gittarDownloadTail fs http config subpath cacheDir outdir
    else gittarDownloadTail fs http config subpath cacheDir outdir

/-- Projection used to state concrete evaluations of gittar without
comparing whole Except values. -/
def resultOf : Except GErr GOutcome → Option GittarResult
  | .ok o => some o.result
  | .error _ => none

/-- Projection to the fetched URL list of a successful call. -/
def fetchedOf : Except GErr GOutcome → Option (List String)
  | .ok o => some o.fetched
  | .error _ => none

/-! Helper lemmas about the string and filesystem primitives. -/

theorem listIsPrefixOf_iff {α : Type} [DecidableEq α] (l₁ l₂ : List α) :
    l₁.isPrefixOf l₂ = true ↔ ∃ t, l₁ ++ t = l₂ := by
  induction l₁ generalizing l₂ with
  | nil => simp [List.isPrefixOf]
  | cons a l ih =>
    cases l₂ with
    | nil => simp [List.isPrefixOf]
    | cons b t =>
      simp only [List.isPrefixOf, Bool.and_eq_true, beq_iff_eq, ih, List.cons_append,
        List.cons.injEq]
      constructor
      · rintro ⟨rfl, u, rfl⟩; exact ⟨u, rfl, rfl⟩
      · rintro ⟨u, rfl, rfl⟩; exact ⟨rfl, u, rfl⟩

theorem stringDataInj {s t : String} (h : s.data = t.data) : s = t := by
  cases s; cases t; exact congrArg String.mk h

theorem isUnder_append (root rel : String) : isUnder root (root ++ "/" ++ rel) = true := by
  unfold isUnder
  rw [listIsPrefixOf_iff]
  exact ⟨rel.data, (String.data_append (root ++ "/") rel).symm⟩

theorem relTo_append (root rel : String) : relTo root (root ++ "/" ++ rel) = rel := by
  unfold relTo
  apply stringDataInj
  show ((root ++ "/" ++ rel).data.drop (root ++ "/").data.length) = rel.data
  rw [String.data_append (root ++ "/") rel, List.drop_left]

theorem append_relTo {root p : String} (h : isUnder root p = true) :
    root ++ "/" ++ relTo root p = p := by
  unfold isUnder at h
  rw [listIsPrefixOf_iff] at h
  obtain ⟨t, ht⟩ := h
  apply stringDataInj
  rw [String.data_append (root ++ "/") (relTo root p)]
  unfold relTo
  show (root ++ "/").data ++ (p.data.drop (root ++ "/").data.length) = p.data
  rw [← ht, List.drop_left]

theorem mem_insertSorted (a x : String) (l : List String) :
    a ∈ insertSorted x l ↔ a = x ∨ a ∈ l := by
  induction l with
  | nil => simp [insertSorted]
  | cons b t ih =>
    unfold insertSorted
    split
    · simp
    · simp [ih]
      tauto

theorem mem_sortStrs (a : String) (l : List String) : a ∈ sortStrs l ↔ a ∈ l := by
  induction l with
  | nil => simp [sortStrs]
  | cons b t ih => simp [sortStrs, mem_insertSorted, ih]

theorem filter_map_comp {α β : Type} (f : α → β) (p : β → Bool) (l : List α) :
    (l.map f).filter p = (l.filter (fun a => p (f a))).map f := by
  induction l with
  | nil => rfl
  | cons a t ih =>
    simp only [List.map_cons, List.filter_cons]
    split
    · simp [List.map_cons, ih]
    · simp [ih]

/-! Claim theorems. -/

/-- C3: with no caller-supplied branch the candidate ref list is exactly
main then master; a 404 on a candidate advances to the next candidate
exactly when one remains, so a 404 on main followed by a 2xx on master
performs exactly the two fetches, in that order, and returns the master
payload, while a 404 on master (the last candidate) is terminal. -/
theorem c3_main_master_fallback (config : Config) (hb : config.branch = none)
    (u1 u2 : String)
    (h1 : getTarUrl config.url (some "main") = some u1)
    (h2 : getTarUrl config.url (some "master") = some u2) :
    branchCandidates config = ["main", "master"] ∧
    (∀ (http : String → Except String HttpResp) (r1 r2 : HttpResp),
      http u1 = .ok r1 → r1.status = 404 → http u2 = .ok r2 → respOk r2 = true →
      downloadTar config http = .ok r2.payload [u1, u2]) ∧
    (∀ (http : String → Except String HttpResp) (r1 r2 : HttpResp),
      http u1 = .ok r1 → r1.status = 404 → http u2 = .ok r2 → r2.status = 404 →
      downloadTar config http = .err (.downloadFailed 404 r2.statusText "master") [u1, u2]) := by
  have hc : branchCandidates config = ["main", "master"] := by
    simp [branchCandidates, hb]
  refine ⟨hc, ?_, ?_⟩
  · intro http r1 r2 hh1 hs1 hh2 hok2
    have hno1 : respOk r1 = false := by simp [respOk, hs1]
    unfold downloadTar
    rw [hc]
    simp only [downloadTarGo, h1, hh1, hno1, hs1, h2, hh2, hok2]
    simp
  · intro http r1 r2 hh1 hs1 hh2 hs2
    have hno1 : respOk r1 = false := by simp [respOk, hs1]
    have hno2 : respOk r2 = false := by simp [respOk, hs2]
    unfold downloadTar
    rw [hc]
    simp only [downloadTarGo, h1, hh1, hno1, hs1, h2, hh2, hno2, hs2]
    simp

/-- Witness for C3 at a concrete configuration and network oracle. -/
theorem c3_main_master_fallback_witness :
    downloadTar { url := "o/r" }
      (fun u => if u = "https://github.com/o/r/archive/main.tar.gz" then .ok ⟨404, "Not Found", []⟩
        else .ok ⟨200, "OK", ["a.txt"]⟩) =
      .ok ["a.txt"] ["https://github.com/o/r/archive/main.tar.gz",
                     "https://github.com/o/r/archive/master.tar.gz"] :=
  (c3_main_master_fallback { url := "o/r" } rfl
    "https://github.com/o/r/archive/main.tar.gz"
    "https://github.com/o/r/archive/master.tar.gz"
    (by decide) (by decide)).2.1 _ ⟨404, "Not Found", []⟩ ⟨200, "OK", ["a.txt"]⟩
    rfl rfl rfl (by decide)

/-- C4 counterexample: with the explicitly supplied branch value set to the
empty string, the candidate list is not that one branch: after a 404 on
main the downloader does attempt master and returns its payload, so the
claim as stated fails at this input. -/
theorem c4_counterexample :
    downloadTar { url := "o/r", branch := some "" }
      (fun u => if u = "https://github.com/o/r/archive/main.tar.gz" then .ok ⟨404, "Not Found", []⟩
        else .ok ⟨200, "OK", ["a.txt"]⟩) =
      .ok ["a.txt"] ["https://github.com/o/r/archive/main.tar.gz",
                     "https://github.com/o/r/archive/master.tar.gz"] ∧
    branchCandidates { url := "o/r", branch := some "" } ≠ [""] := by
  constructor
  · rfl
  · decide

/-- C4 amended: with an explicit non-empty branch the candidate list is
exactly that one branch and a 404 on it raises URLError immediately (master
is never attempted); an empty-string branch behaves as if no branch were
supplied. Moreover any non-2xx, non-404 status is an immediate terminal
URLError at any position of the candidate loop. -/
theorem c4_explicit_branch (config : Config) (b : String)
    (hb : config.branch = some b) (hne : b ≠ "") :
    branchCandidates config = [b] ∧
    (∀ (http : String → Except String HttpResp) (u : String) (r : HttpResp),
      getTarUrl config.url (some b) = some u → http u = .ok r → r.status = 404 →
      downloadTar config http = .err (.downloadFailed 404 r.statusText b) [u]) ∧
    (∀ (cfgUrl : String) (http : String → Except String HttpResp)
       (attempts rest : List String) (b1 u : String) (r : HttpResp),
      getTarUrl cfgUrl (some b1) = some u → http u = .ok r →
      respOk r = false → r.status ≠ 404 →
      downloadTarGo cfgUrl http attempts (b1 :: rest) =
        .err (.downloadFailed r.status r.statusText b1) (attempts ++ [u])) := by
  have hc : branchCandidates config = [b] := by
    simp [branchCandidates, hb, hne]
  refine ⟨hc, ?_, ?_⟩
  · intro http u r hu hh hs
    have hno : respOk r = false := by simp [respOk, hs]
    unfold downloadTar
    rw [hc]
    simp only [downloadTarGo, hu, hh, hno, hs]
    simp
  · intro cfgUrl http attempts rest b1 u r hu hh hno h404
    simp only [downloadTarGo, hu, hh, hno]
    simp only [beq_iff_eq] at *
    simp [h404]

/-- Witness for C4 amended at a concrete configuration and oracle. -/
theorem c4_explicit_branch_witness :
    downloadTar { url := "o/r", branch := some "dev" }
      (fun _ => .ok ⟨404, "Not Found", []⟩) =
      .err (.downloadFailed 404 "Not Found" "dev") ["https://github.com/o/r/archive/dev.tar.gz"] ∧
    downloadTarGo "o/r" (fun _ => .ok ⟨500, "Internal Server Error", []⟩) [] ["main", "master"] =
      .err (.downloadFailed 500 "Internal Server Error" "main")
        ["https://github.com/o/r/archive/main.tar.gz"] :=
  ⟨(c4_explicit_branch { url := "o/r", branch := some "dev" } "dev" rfl (by decide)).2.1 _
      "https://github.com/o/r/archive/dev.tar.gz" ⟨404, "Not Found", []⟩ (by decide) rfl rfl,
   (c4_explicit_branch { url := "o/r", branch := some "dev" } "dev" rfl (by decide)).2.2 "o/r" _
      [] ["master"] "main" "https://github.com/o/r/archive/main.tar.gz"
      ⟨500, "Internal Server Error", []⟩ (by decide) rfl (by decide) (by decide)⟩

/-- C6: for every URL path whose segments (empties dropped) are owner,
repo, a branch marker and a ref segment, and for every value of the
branch-override parameter, the parsed ref is the URL-embedded segment: the
path-derived ref overrides both the built-in default main and an explicit
override. -/
theorem c6_url_ref_overrides (hostname pathname : String) (db : Option String)
    (owner repo ty r : String) (rest : List String)
    (hsegs : (splitChar '/' pathname).filter (fun seg => seg ≠ "") = owner :: repo :: ty :: r :: rest)
    (hty : branchMarkers.contains ty = true) :
    ∃ d, parseUrlFormat hostname pathname db = some d ∧ d.ref = r := by
  have howner : owner ≠ "" := by
    have : owner ∈ (splitChar '/' pathname).filter (fun seg => seg ≠ "") := by
      rw [hsegs]; exact List.mem_cons_self _ _
    simpa using List.of_mem_filter this
  have hrepo : repo ≠ "" := by
    have : repo ∈ (splitChar '/' pathname).filter (fun seg => seg ≠ "") := by
      rw [hsegs]; exact List.mem_cons_of_mem _ (List.mem_cons_self _ _)
    simpa using List.of_mem_filter this
  have hr : r ≠ "" := by
    have : r ∈ (splitChar '/' pathname).filter (fun seg => seg ≠ "") := by
      rw [hsegs]
      exact List.mem_cons_of_mem _ (List.mem_cons_of_mem _ (List.mem_cons_of_mem _
        (List.mem_cons_self _ _)))
    simpa using List.of_mem_filter this
  unfold parseUrlFormat
  rw [hsegs]
  simp only [howner, hrepo, hty, hr, if_true, if_false]
  simp [howner, hrepo, hr]

/-- Witness for C6 at a concrete tree-style path with an explicit
override parameter. -/
theorem c6_url_ref_overrides_witness :
    ∃ d, parseUrlFormat "github.com" "/o/r/tree/dev/src" (some "override") = some d ∧
      d.ref = "dev" :=
  c6_url_ref_overrides "github.com" "/o/r/tree/dev/src" (some "override")
    "o" "r" "tree" "dev" ["src"] (by decide) (by decide)

/-- C7: getTarUrl is a total function signaling failure only by none:
unparseable identifiers yield none, unrecognized hostnames yield none,
azure hosts (any hostname containing dev.azure.com or visualstudio.com,
which the ordered detection table maps to azure) yield none, and the
Azure DevOps test vector yields none. -/
theorem c7_getTarUrl_null (input : String) (branch : Option String) :
    (parseInput input branch = none → getTarUrl input branch = none) ∧
    (∀ d, parseInput input branch = some d → detectPlatform d.hostname = none →
      getTarUrl input branch = none) ∧
    (∀ d, parseInput input branch = some d → detectPlatform d.hostname = some "azure" →
      getTarUrl input branch = none) ∧
    (∀ h, strIncludes (lowerStr h) "dev.azure.com" = true ∨
        strIncludes (lowerStr h) "visualstudio.com" = true →
      detectPlatform h = some "azure") ∧
    getTarUrl "https://dev.azure.com/o/p/_git/r" none = none := by
  refine ⟨?_, ?_, ?_, ?_, by decide⟩
  · intro h; unfold getTarUrl; rw [h]
  · intro d hp hd; unfold getTarUrl; rw [hp]; simp [hd]
  · intro d hp hd; unfold getTarUrl; rw [hp]; simp [hd]
  · intro h hOr
    rcases hOr with hh | hh <;>
      simp [detectPlatform, platformMappings, List.find?, List.any, hh]

/-- Witness for C7: each null-signaling case at a concrete input. -/
theorem c7_getTarUrl_null_witness :
    getTarUrl "justoneword" none = none ∧
    getTarUrl "https://example.com/a/b" none = none ∧
    getTarUrl "https://dev.azure.com/o/p/_git/r" (some "dev") = none ∧
    detectPlatform "myorg.visualstudio.com" = some "azure" :=
  ⟨(c7_getTarUrl_null "justoneword" none).1 (by decide),
   (c7_getTarUrl_null "https://example.com/a/b" none).2.1
      ⟨"a", "b", "example.com", "main", none⟩ (by decide) (by decide),
   (c7_getTarUrl_null "https://dev.azure.com/o/p/_git/r" (some "dev")).2.2.1
      ⟨"o", "p", "dev.azure.com", "dev", none⟩ (by decide) (by decide),
   (c7_getTarUrl_null "x" none).2.2.2.1 "myorg.visualstudio.com" (Or.inr (by decide))⟩

/-- C8: every successful parse yields a descriptor whose owner and repo are
both non-empty, in all three parse branches; a parse that cannot produce
both returns none. -/
theorem c8_owner_repo_nonempty (input : String) (db : Option String) (d : ParsedRepo)
    (h : parseInput input db = some d) : d.owner ≠ "" ∧ d.repo ≠ "" := by
  have ssh : ∀ (s : String), parseSshFormat s db = some d → d.owner ≠ "" ∧ d.repo ≠ "" := by
    intro s hs
    unfold parseSshFormat at hs
    split at hs
    next host p ps =>
      dsimp only [] at hs
      split at hs
      · exact absurd hs (by simp)
      next hguard =>
        split at hs
        next owner repo t =>
          split at hs
          · exact absurd hs (by simp)
          next hguard2 =>
            simp only [Option.some.injEq] at hs
            subst hs
            simpa using hguard2
        · exact absurd hs (by simp)
    · exact absurd hs (by simp)
  have short : ∀ (s : String), parseShortFormat s db = some d → d.owner ≠ "" ∧ d.repo ≠ "" := by
    intro s hs
    unfold parseShortFormat at hs
    split at hs
    next owner repo t =>
      split at hs
      · exact absurd hs (by simp)
      next hguard =>
        simp only [Option.some.injEq] at hs
        subst hs
        simpa using hguard
    · exact absurd hs (by simp)
  have urlf : ∀ (hn pn : String), parseUrlFormat hn pn db = some d →
      d.owner ≠ "" ∧ d.repo ≠ "" := by
    intro hn pn hs
    unfold parseUrlFormat at hs
    split at hs
    next owner repo rest =>
      split at hs
      · exact absurd hs (by simp)
      next hguard =>
        simp only [Option.some.injEq] at hs
        subst hs
        simpa using hguard
    · exact absurd hs (by simp)
  unfold parseInput at h
  split at h
  · exact ssh _ h
  · split at h
    · exact short _ h
    · split at h
      next hp => exact urlf _ _ h
      · exact short _ h

/-- Witness for C8 at a concrete SSH-form input. -/
theorem c8_owner_repo_nonempty_witness :
    (⟨"user", "repo", "github.com", "main", none⟩ : ParsedRepo).owner ≠ "" ∧
    (⟨"user", "repo", "github.com", "main", none⟩ : ParsedRepo).repo ≠ "" :=
  c8_owner_repo_nonempty "git@github.com:user/repo.git" none _ (by decide)

/-- C9 counterexample: with config.cacheDir present but equal to the empty
string, the resolved cache directory is the default path, not the
tilde-expanded cacheDir (which would be the empty string), so the claim as
stated fails at this input. -/
theorem c9_counterexample :
    getCacheDir "/h" { url := "o/r", cacheDir := some "" } "o" "r" =
      "/h/.cache/hulla/gittar/o/r" ∧
    normalizePath "/h" "" = "" ∧
    getCacheDir "/h" { url := "o/r", cacheDir := some "" } "o" "r" ≠
      normalizePath "/h" "" := by
  refine ⟨by decide, by decide, by decide⟩

/-- C9 amended: a present non-empty config.cacheDir resolves to its
tilde-expanded value; an absent or empty-string cacheDir resolves to the
default home/.cache/hulla/gittar/owner/repo path; the resolution is
independent of the outDir and subpath fields; and tilde expansion maps a
leading tilde-slash to home plus remainder, a bare tilde to home, and
leaves any other string unchanged. -/
theorem c9_cache_dir_resolution (home : String) (config : Config) (owner repo : String) :
    (∀ s, config.cacheDir = some s → s ≠ "" →
      getCacheDir home config owner repo = normalizePath home s) ∧
    (config.cacheDir = none ∨ config.cacheDir = some "" →
      getCacheDir home config owner repo =
        home ++ "/.cache/hulla/gittar/" ++ owner ++ "/" ++ repo) ∧
    (∀ od sp, getCacheDir home { config with outDir := od, subpath := sp } owner repo =
      getCacheDir home config owner repo) ∧
    (∀ p, strStarts p "~/" = true → normalizePath home p = home ++ "/" ++ dropStr 2 p) ∧
    normalizePath home "~" = home ∧
    (∀ p, strStarts p "~/" = false → p ≠ "~" → normalizePath home p = p) := by
  refine ⟨?_, ?_, ?_, ?_, by simp [normalizePath, strStarts, listIsPrefixOf_iff], ?_⟩
  · intro s hs hne
    unfold getCacheDir
    rw [hs]
    simp [hne]
  · rintro (hc | hc) <;> simp [getCacheDir, hc]
  · intro od sp
    unfold getCacheDir
    rfl
  · intro p hp
    unfold normalizePath
    rw [show strStarts p "~/" = true from hp]
    rfl
  · intro p hp hne
    unfold normalizePath
    rw [show strStarts p "~/" = false from hp]
    simp [hne]

/-- Witness for C9 at concrete configurations. -/
theorem c9_cache_dir_resolution_witness :
    getCacheDir "/h" { url := "o/r", cacheDir := some "~/mycache" } "o" "r" =
      normalizePath "/h" "~/mycache" ∧
    getCacheDir "/h" { url := "o/r" } "o" "r" = "/h" ++ "/.cache/hulla/gittar/" ++ "o" ++ "/" ++ "r" ∧
    normalizePath "/h" "~/mycache" = "/h" ++ "/" ++ dropStr 2 "~/mycache" :=
  ⟨(c9_cache_dir_resolution "/h" { url := "o/r", cacheDir := some "~/mycache" } "o" "r").1
      "~/mycache" rfl (by decide),
   (c9_cache_dir_resolution "/h" { url := "o/r" } "o" "r").2.1 (Or.inl rfl),
   (c9_cache_dir_resolution "/h" { url := "o/r" } "o" "r").2.2.2.1 "~/mycache" (by decide)⟩

/-- Helper: every successful outcome of the download tail carries the
effective subpath it was given. -/
theorem gittarDownloadTail_subpath (fs : FS) (http : String → Except String HttpResp)
    (config : Config) (subpath : Option String) (cacheDir outdir : String) (o : GOutcome)
    (h : gittarDownloadTail fs http config subpath cacheDir outdir = .ok o) :
    o.result.subpath = subpath := by
  unfold gittarDownloadTail at h
  split at h
  · exact absurd h (by simp)
  · dsimp only [] at h
    split at h
    · split at h
      · exact absurd h (by simp)
      · simp only [Except.ok.injEq] at h
        subst h
        rfl
    · simp only [Except.ok.injEq] at h
      subst h
      rfl

/-- C1 counterexample: with config.subpath supplied as the empty string and
a tree-style URL embedding the subpath src, the effective subpath of the
call is src, not the caller-supplied empty string, so the claim as stated
(config.subpath overrides even when empty) fails at this input. -/
theorem c1_counterexample :
    resultOf (gittar "/h"
      { dirs := ["/h/.cache/hulla/gittar/o/r", "/h/.cache/hulla/gittar/o/r/src"],
        files := ["/h/.cache/hulla/gittar/o/r/src/index.ts"] }
      (fun _ => .error "offline")
      { url := "https://github.com/o/r/tree/main/src", subpath := some "" }) =
      some { files := ["/h/.cache/hulla/gittar/o/r/src/index.ts"],
             cacheDir := "/h/.cache/hulla/gittar/o/r",
             outDir := "/h/.cache/hulla/gittar/o/r",
             subpath := some "src", fromCache := true } ∧
    (some "src" : Option String) ≠ some "" := by
  exact ⟨by decide, by decide⟩

/-- C1 amended: the effective subpath of every successful call is the JS
or-expression of config.subpath and the URL-derived subpath: a non-empty
config.subpath overrides, while an absent or empty-string config.subpath
defers to the URL-derived subpath. -/
theorem c1_effective_subpath (home : String) (fs : FS)
    (http : String → Except String HttpResp) (config : Config) (parsed : ParsedRepo)
    (hparse : parseInput config.url none = some parsed) (o : GOutcome)
    (h : gittar home fs http config = .ok o) :
    o.result.subpath = jsOrStr config.subpath parsed.subpath := by
  unfold gittar at h
  rw [hparse] at h
  dsimp only [] at h
  split at h
  · split at h
    · split at h
      · split at h
        · exact absurd h (by simp)
        · simp only [Except.ok.injEq] at h
          subst h
          rfl
      · simp only [Except.ok.injEq] at h
        subst h
        rfl
    · exact gittarDownloadTail_subpath _ _ _ _ _ _ _ h
  · exact gittarDownloadTail_subpath _ _ _ _ _ _ _ h

/-- Witness for C1 amended at a concrete call that misses the cache and
downloads. -/
theorem c1_effective_subpath_witness :
    ({ result := { files := [],
                   cacheDir := "/h/.cache/hulla/gittar/o/r",
                   outDir := "/h/.cache/hulla/gittar/o/r",
                   subpath := some "x", fromCache := false },
       fs := { dirs := ["/h/.cache/hulla/gittar/o/r"], files := [] },
       fetched := ["https://github.com/o/r/archive/main.tar.gz"] } : GOutcome).result.subpath =
      jsOrStr (some "x") none :=
  c1_effective_subpath "/h" ⟨[], []⟩ (fun _ => .ok ⟨200, "OK", []⟩)
    { url := "o/r", subpath := some "x" } ⟨"o", "r", "github.com", "main", none⟩
    (by decide) _ rfl

/-- C10: with update unset, no effective subpath and outDir unset, the mere
existence of the cache directory decides the hit: when the cache directory
exists but holds no non-hidden files, the call returns fromCache true with
an empty file list and fetches nothing over the network. -/
theorem c10_empty_cache_is_hit (home : String) (fs : FS)
    (http : String → Except String HttpResp) (config : Config) (parsed : ParsedRepo)
    (cd : String)
    (hparse : parseInput config.url none = some parsed)
    (hsp : jsOrStr config.subpath parsed.subpath = none)
    (hupd : config.update ≠ some true)
    (hout : config.outDir = none)
    (hcd : getCacheDir home config parsed.owner parsed.repo = cd)
    (hdir : fs.dirs.contains cd = true)
    (hscan : scanFiles fs cd = []) :
    gittar home fs http config =
      .ok { result := { files := [], cacheDir := cd, outDir := cd, subpath := none,
                        fromCache := true },
            fs := fs, fetched := [] } := by
  have hmem : cd ∈ fs.dirs := by simpa using hdir
  have hcc : checkCache fs cd none = some [] := by
    unfold checkCache
    simp [dirExists, pathExists, hmem, subDirOf, hscan, sortStrs]
  unfold gittar
  rw [hparse]
  dsimp only []
  rw [hsp, hcd, hout]
  rw [if_pos hupd]
  simp only [hcc]
  simp

/-- Witness for C10 at a concrete empty cache directory. -/
theorem c10_empty_cache_is_hit_witness :
    gittar "/h" { dirs := ["/h/.cache/hulla/gittar/o/r"], files := [] }
      (fun _ => .error "offline") { url := "o/r" } =
      .ok { result := { files := [], cacheDir := "/h/.cache/hulla/gittar/o/r",
                        outDir := "/h/.cache/hulla/gittar/o/r", subpath := none,
                        fromCache := true },
            fs := { dirs := ["/h/.cache/hulla/gittar/o/r"], files := [] }, fetched := [] } :=
  c10_empty_cache_is_hit "/h" _ _ { url := "o/r" } ⟨"o", "r", "github.com", "main", none⟩
    "/h/.cache/hulla/gittar/o/r" (by decide) (by decide) (by decide) (by decide)
    (by decide) (by decide) (by decide)

/-- C5: with update unset and an effective subpath, a cache hit requires
the subpath entry to literally exist under the cache directory: when the
cache directory exists but the subpath entry does not, checkCache reports a
full miss and the call re-downloads the repository tarball and re-extracts
the entire payload into the cache directory (never a partial fetch of just
the missing subpath). -/
theorem c5_subpath_miss_full_redownload (home : String) (fs : FS)
    (http : String → Except String HttpResp) (config : Config) (parsed : ParsedRepo)
    (sp cd : String) (tree attempts : List String)
    (hparse : parseInput config.url none = some parsed)
    (hsp : jsOrStr config.subpath parsed.subpath = some sp)
    (hne : sp ≠ "")
    (hupd : config.update ≠ some true)
    (hout : config.outDir = none)
    (hcd : getCacheDir home config parsed.owner parsed.repo = cd)
    (hdir : dirExists fs cd = true)
    (hmiss : pathExists fs (cd ++ "/" ++ sp) = false)
    (hdl : downloadTar config http = .ok tree attempts) :
    checkCache fs cd (some sp) = none ∧
    gittar home fs http config =
      .ok { result := { files := (checkCache (extractTar fs tree cd).1 cd (some sp)).getD [],
                        cacheDir := cd, outDir := cd, subpath := some sp, fromCache := false },
            fs := (extractTar fs tree cd).1, fetched := attempts } := by
  have hcc : checkCache fs cd (some sp) = none := by
    unfold checkCache
    simp [hdir, subDirOf, hne, hmiss]
  refine ⟨hcc, ?_⟩
  unfold gittar
  rw [hparse]
  dsimp only []
  rw [hsp, hcd, hout]
  rw [if_pos hupd]
  simp only [hcc]
  unfold gittarDownloadTail
  rw [hdl]
  simp

/-- Witness for C5: a cache directory that exists without the requested
subpath entry, followed by a successful full download. -/
theorem c5_subpath_miss_full_redownload_witness :
    checkCache { dirs := ["/h/.cache/hulla/gittar/o/r"],
                 files := ["/h/.cache/hulla/gittar/o/r/other.txt"] }
        "/h/.cache/hulla/gittar/o/r" (some "src") = none ∧
    gittar "/h"
        { dirs := ["/h/.cache/hulla/gittar/o/r"],
          files := ["/h/.cache/hulla/gittar/o/r/other.txt"] }
        (fun _ => .ok ⟨200, "OK", ["src/index.ts", "README.md"]⟩)
        { url := "https://github.com/o/r/tree/main/src" } =
      .ok { result := { files := (checkCache
                (extractTar { dirs := ["/h/.cache/hulla/gittar/o/r"],
                              files := ["/h/.cache/hulla/gittar/o/r/other.txt"] }
                  ["src/index.ts", "README.md"] "/h/.cache/hulla/gittar/o/r").1
                "/h/.cache/hulla/gittar/o/r" (some "src")).getD [],
                        cacheDir := "/h/.cache/hulla/gittar/o/r",
                        outDir := "/h/.cache/hulla/gittar/o/r",
                        subpath := some "src", fromCache := false },
            fs := (extractTar { dirs := ["/h/.cache/hulla/gittar/o/r"],
                                files := ["/h/.cache/hulla/gittar/o/r/other.txt"] }
                ["src/index.ts", "README.md"] "/h/.cache/hulla/gittar/o/r").1,
            fetched := ["https://github.com/o/r/archive/main.tar.gz"] } :=
  c5_subpath_miss_full_redownload "/h" _ _
    { url := "https://github.com/o/r/tree/main/src" }
    ⟨"o", "r", "github.com", "main", some "src"⟩ "src" "/h/.cache/hulla/gittar/o/r"
    ["src/index.ts", "README.md"] ["https://github.com/o/r/archive/main.tar.gz"]
    (by decide) (by decide) (by decide) (by decide) (by decide) (by decide)
    (by decide) (by decide) rfl

/-- Helper: a scan of a destination directory that held no files before a
set of relative paths was written under it lists exactly the written
non-hidden relative paths. -/
theorem scanFiles_fresh (D L rels : List String) (dst : String)
    (hL : ∀ f ∈ L, isUnder dst f = false) :
    scanFiles ⟨D, L ++ rels.map (fun r => dst ++ "/" ++ r)⟩ dst =
      rels.filter (fun r => !hiddenRel r) := by
  unfold scanFiles
  rw [List.filter_append]
  have h1 : L.filter (fun p => isUnder dst p && !hiddenRel (relTo dst p)) = [] := by
    rw [List.filter_eq_nil_iff]
    intro a ha
    simp [hL a ha]
  rw [h1, List.nil_append, filter_map_comp]
  have h2 : (fun r => isUnder dst (dst ++ "/" ++ r) && !hiddenRel (relTo dst (dst ++ "/" ++ r))) =
      (fun r : String => !hiddenRel r) := by
    funext r
    rw [isUnder_append, relTo_append]
    simp
  rw [h2, List.map_map]
  have h3 : relTo dst ∘ (fun r => dst ++ "/" ++ r) = id := by
    funext r
    exact relTo_append dst r
  rw [h3, List.map_id]

/-- Helper: membership in the list of relative paths of all files under a
directory. -/
theorem mem_allFilesUnder (fs : FS) (S rel : String) :
    rel ∈ allFilesUnder fs S ↔ (S ++ "/" ++ rel) ∈ fs.files := by
  unfold allFilesUnder
  simp only [List.mem_map, List.mem_filter]
  constructor
  · rintro ⟨p, ⟨hp, hu⟩, rfl⟩
    rw [append_relTo hu]
    exact hp
  · intro hmem
    exact ⟨S ++ "/" ++ rel, ⟨hmem, isUnder_append S rel⟩, relTo_append S rel⟩

/-- Helper: the file list returned by copyFiles into a destination holding
no prior files consists exactly of the non-hidden files under the copy
source, re-rooted at the destination. -/
theorem copyFiles_files_mem (fs : FS) (srcDir dst sp : String) (hne : sp ≠ "")
    (hsub : pathExists fs (srcDir ++ "/" ++ sp) = true)
    (hfresh : ∀ f ∈ fs.files, isUnder dst f = false)
    (fs1 : FS) (files : List String)
    (hcopy : copyFiles fs srcDir dst (some sp) = .ok (fs1, files)) (f : String) :
    f ∈ files ↔ ∃ rel, f = dst ++ "/" ++ rel ∧ hiddenRel rel = false ∧
      srcDir ++ "/" ++ sp ++ "/" ++ rel ∈ fs.files := by
  unfold copyFiles at hcopy
  rw [show subDirOf srcDir (some sp) = srcDir ++ "/" ++ sp by simp [subDirOf, hne]] at hcopy
  dsimp only [] at hcopy
  rw [hsub] at hcopy
  simp only [Bool.not_true] at hcopy
  rw [if_neg (by simp)] at hcopy
  injection hcopy with hpair
  injection hpair with hfs1 hfiles
  subst hfiles
  subst hfs1
  rw [scanFiles_fresh _ _ _ _ (fun g hg => hfresh g (List.mem_of_mem_filter hg))]
  simp only [mem_sortStrs, List.mem_map, List.mem_filter, mem_allFilesUnder]
  constructor
  · rintro ⟨rel, ⟨hrel, hh⟩, rfl⟩
    exact ⟨rel, rfl, by simpa using hh, hrel⟩
  · rintro ⟨rel, rfl, hh, hrel⟩
    exact ⟨rel, ⟨hrel, by simp [hh]⟩, rfl⟩

/-- Helper: the file list returned by a checkCache hit on a subpath
consists exactly of the non-hidden cached files under the subpath, listed
at their absolute cache positions (keeping the subpath segment). -/
theorem checkCache_files_mem (fs : FS) (cd sp : String) (hne : sp ≠ "")
    (hdir : dirExists fs cd = true) (hsub : pathExists fs (cd ++ "/" ++ sp) = true)
    (L : List String) (hcc : checkCache fs cd (some sp) = some L) (f : String) :
    f ∈ L ↔ ∃ rel, f = cd ++ "/" ++ sp ++ "/" ++ rel ∧ hiddenRel rel = false ∧ f ∈ fs.files := by
  unfold checkCache at hcc
  rw [hdir] at hcc
  rw [show subDirOf cd (some sp) = cd ++ "/" ++ sp by simp [subDirOf, hne]] at hcc
  dsimp only [] at hcc
  rw [hsub] at hcc
  simp only [Bool.not_true] at hcc
  rw [if_neg (by simp)] at hcc
  rw [if_neg (by simp)] at hcc
  injection hcc with hcc2
  subst hcc2
  simp only [mem_sortStrs, List.mem_map]
  unfold scanFiles
  simp only [List.mem_map, List.mem_filter]
  constructor
  · rintro ⟨rel, ⟨p, ⟨hp, hq⟩, rfl⟩, rfl⟩
    simp only [Bool.and_eq_true, Bool.not_eq_true'] at hq
    refine ⟨relTo (cd ++ "/" ++ sp) p, rfl, hq.2, ?_⟩
    rw [append_relTo hq.1]
    exact hp
  · rintro ⟨rel, rfl, hh, hmem⟩
    refine ⟨rel, ⟨cd ++ "/" ++ sp ++ "/" ++ rel, ⟨hmem, ?_⟩, relTo_append _ _⟩, ?_⟩
    · rw [isUnder_append, relTo_append]
      simp [hh]
    · rfl

/-- C2 counterexample: on the outDir-equals-cacheDir path, a cached file
src/index.ts is reported as outDir/src/index.ts, keeping the subpath
segment, not as outDir/index.ts, so the claim as stated (relative to the
output root on both paths) fails at this input. -/
theorem c2_counterexample :
    resultOf (gittar "/h"
      { dirs := ["/h/.cache/hulla/gittar/o/r", "/h/.cache/hulla/gittar/o/r/src"],
        files := ["/h/.cache/hulla/gittar/o/r/src/index.ts"] }
      (fun _ => .error "offline")
      { url := "https://github.com/o/r/tree/main/src" }) =
      some { files := ["/h/.cache/hulla/gittar/o/r/src/index.ts"],
             cacheDir := "/h/.cache/hulla/gittar/o/r",
             outDir := "/h/.cache/hulla/gittar/o/r",
             subpath := some "src", fromCache := true } ∧
    ("/h/.cache/hulla/gittar/o/r/src/index.ts" : String) =
      "/h/.cache/hulla/gittar/o/r" ++ "/src/index.ts" ∧
    ("/h/.cache/hulla/gittar/o/r/src/index.ts" : String) ≠
      "/h/.cache/hulla/gittar/o/r" ++ "/index.ts" := by
  exact ⟨by decide, by decide, by decide⟩

/-- C2 amended: with an effective subpath and a cache hit, the file list
contains exactly the non-hidden files originally under the subpath; on the
copy-to-outDir path each cached file subpath/rel is reported relative to
the output root as outDir/rel, while on the outDir-equals-cacheDir path the
files keep their absolute cache positions cacheDir/subpath/rel (the subpath
segment is not stripped there). -/
theorem c2_subpath_relative_reporting (home : String) (fs : FS)
    (http : String → Except String HttpResp) (config : Config) (parsed : ParsedRepo)
    (sp od cd : String)
    (hparse : parseInput config.url none = some parsed)
    (hsp : jsOrStr config.subpath parsed.subpath = some sp)
    (hne : sp ≠ "")
    (hupd : config.update ≠ some true)
    (hcd : getCacheDir home config parsed.owner parsed.repo = cd)
    (hdir : dirExists fs cd = true)
    (hsub : pathExists fs (cd ++ "/" ++ sp) = true)
    (hconf : config.outDir = some od)
    (hodne : od ≠ "")
    (hnotilde : strStarts od "~/" = false)
    (hodnt : od ≠ "~")
    (hsep : od ≠ cd)
    (hfresh : ∀ f ∈ fs.files, isUnder od f = false) :
    (∃ o, gittar home fs http config = .ok o ∧ o.result.outDir = od ∧
      o.result.fromCache = true ∧
      ∀ f, f ∈ o.result.files ↔ ∃ rel, f = od ++ "/" ++ rel ∧ hiddenRel rel = false ∧
        cd ++ "/" ++ sp ++ "/" ++ rel ∈ fs.files) ∧
    (∃ o, gittar home fs http { config with outDir := none } = .ok o ∧
      o.result.outDir = cd ∧ o.result.fromCache = true ∧
      ∀ f, f ∈ o.result.files ↔ ∃ rel, f = cd ++ "/" ++ sp ++ "/" ++ rel ∧
        hiddenRel rel = false ∧ f ∈ fs.files) := by
  have hsd : subDirOf cd (some sp) = cd ++ "/" ++ sp := by simp [subDirOf, hne]
  have hccA : checkCache fs cd (some sp) =
      some (sortStrs ((scanFiles fs (cd ++ "/" ++ sp)).map
        (fun f => cd ++ "/" ++ sp ++ "/" ++ f))) := by
    unfold checkCache
    rw [hdir, hsd]
    dsimp only []
    rw [hsub]
    simp only [Bool.not_true]
    rw [if_neg (by simp), if_neg (by simp)]
  have hnorm : normalizePath home od = od := by
    simp [normalizePath, hnotilde, hodnt]
  constructor
  · rcases hcp : copyFiles fs cd od (some sp) with e | ⟨fs2, files⟩
    · exfalso
      unfold copyFiles at hcp
      rw [hsd] at hcp
      dsimp only [] at hcp
      rw [hsub] at hcp
      simp at hcp
    · refine ⟨⟨⟨files, cd, od, some sp, true⟩, fs2, []⟩, ?_, rfl, rfl, ?_⟩
      · unfold gittar
        rw [hparse]
        dsimp only []
        rw [hsp, hcd, hconf]
        dsimp only []
        rw [if_neg hodne, hnorm, if_pos hupd, hccA]
        dsimp only []
        rw [if_pos hsep, hcp]
      · intro f
        exact copyFiles_files_mem fs cd od sp hne hsub hfresh fs2 files hcp f
  · refine ⟨⟨⟨sortStrs ((scanFiles fs (cd ++ "/" ++ sp)).map (fun f => cd ++ "/" ++ sp ++ "/" ++ f)), cd, cd, some sp, true⟩, fs, []⟩, ?_, rfl, rfl, ?_⟩
    · have hparse2 : parseInput ({ config with outDir := none } : Config).url none =
          some parsed := hparse
      have hcd2 : getCacheDir home { config with outDir := none } parsed.owner parsed.repo =
          cd := hcd
      unfold gittar
      rw [hparse2]
      dsimp only []
      rw [show jsOrStr ({ config with outDir := none } : Config).subpath parsed.subpath =
        some sp from hsp]
      rw [hcd2]
      rw [if_pos (show ({ config with outDir := none } : Config).update ≠ some true from hupd)]
      rw [hccA]
      dsimp only []
      rw [if_neg (by simp)]
    · intro f
      exact checkCache_files_mem fs cd sp hne hdir hsub _ hccA f

/-- Witness for C2 amended at a concrete cached repository with subpath
src, on both the copy path and the same-directory path. -/
theorem c2_subpath_relative_reporting_witness :
    (∃ o, gittar "/h"
        { dirs := ["/h/.cache/hulla/gittar/o/r", "/h/.cache/hulla/gittar/o/r/src"],
          files := ["/h/.cache/hulla/gittar/o/r/src/index.ts"] }
        (fun _ => .error "offline")
        { url := "https://github.com/o/r/tree/main/src", outDir := some "/out" } = .ok o ∧
      o.result.outDir = "/out" ∧ o.result.fromCache = true ∧
      ∀ f, f ∈ o.result.files ↔ ∃ rel, f = "/out" ++ "/" ++ rel ∧ hiddenRel rel = false ∧
        "/h/.cache/hulla/gittar/o/r" ++ "/" ++ "src" ++ "/" ++ rel ∈
          (FS.mk ["/h/.cache/hulla/gittar/o/r", "/h/.cache/hulla/gittar/o/r/src"]
            ["/h/.cache/hulla/gittar/o/r/src/index.ts"]).files) ∧
    (∃ o, gittar "/h"
        { dirs := ["/h/.cache/hulla/gittar/o/r", "/h/.cache/hulla/gittar/o/r/src"],
          files := ["/h/.cache/hulla/gittar/o/r/src/index.ts"] }
        (fun _ => .error "offline")
        { Config.mk none (some "/out") none "https://github.com/o/r/tree/main/src" none none
            with outDir := none } = .ok o ∧
      o.result.outDir = "/h/.cache/hulla/gittar/o/r" ∧ o.result.fromCache = true ∧
      ∀ f, f ∈ o.result.files ↔ ∃ rel,
        f = "/h/.cache/hulla/gittar/o/r" ++ "/" ++ "src" ++ "/" ++ rel ∧
        hiddenRel rel = false ∧
        f ∈ (FS.mk ["/h/.cache/hulla/gittar/o/r", "/h/.cache/hulla/gittar/o/r/src"]
          ["/h/.cache/hulla/gittar/o/r/src/index.ts"]).files) :=
  c2_subpath_relative_reporting "/h"
    (FS.mk ["/h/.cache/hulla/gittar/o/r", "/h/.cache/hulla/gittar/o/r/src"]
      ["/h/.cache/hulla/gittar/o/r/src/index.ts"])
    (fun _ => .error "offline")
    (Config.mk none (some "/out") none "https://github.com/o/r/tree/main/src" none none)
    ⟨"o", "r", "github.com", "main", some "src"⟩
    "src" "/out" "/h/.cache/hulla/gittar/o/r"
    (by decide) (by decide) (by decide) (by decide) (by decide) (by decide) (by decide)
    (by decide) (by decide) (by decide) (by decide) (by decide) (by decide)

end Gittar
